import Mathlib

/-!
Verification of the swap-engine core of `bot.py` (ankr-token-stream).

The source is a single Python file driving a dummy web3 client.  The model
below is a shallow embedding: every chain interaction that the dummy client
resolves by `random.randint` / `time.time()` is read off an explicit
`Oracle` of value streams, and each external call is recorded in an event
trace so that ordering properties can be stated.  Python's float arithmetic
(`int(balance * percentage / 100)`, `int(float(val) * 10**18)`,
`raw_balance / (10 ** decimals)`) is modelled exactly: CPython evaluates
`int / int` and `float * int` as correctly rounded IEEE-754 binary64
operations, which for the positive normal range is "round the exact rational
to the nearest integer multiple of the ulp, ties to even".  `rne` and
`floatRound` below implement exactly that.
-/

set_option maxRecDepth 8000

namespace AnkrBot

/-- Round a rational to the nearest integer, ties to even (IEEE-754 tie rule). -/
def rne (q : ℚ) : ℤ :=
  if q - ⌊q⌋ < 1/2 then ⌊q⌋
  else if 1/2 < q - ⌊q⌋ then ⌊q⌋ + 1
  else if 2 ∣ ⌊q⌋ then ⌊q⌋ else ⌊q⌋ + 1

theorem rne_intCast (n : ℤ) : rne (n : ℚ) = n := by
  unfold rne
  rw [Int.floor_intCast]
  norm_num

theorem rne_sub_abs (q : ℚ) : |(rne q : ℚ) - q| ≤ 1/2 := by
  unfold rne
  have h0 : (⌊q⌋ : ℚ) ≤ q := Int.floor_le q
  have h1 : q < ⌊q⌋ + 1 := Int.lt_floor_add_one q
  split_ifs with h h2 h3 <;> push_cast <;> rw [abs_le] <;> constructor <;> linarith

theorem rne_nonneg (q : ℚ) (hq : 0 ≤ q) : 0 ≤ rne q := by
  unfold rne
  have := Int.floor_nonneg.mpr hq
  split_ifs <;> omega

theorem rne_eq_of_lt_half (q : ℚ) (n : ℤ) (h1 : (n:ℚ) ≤ q) (h2 : q < (n:ℚ) + 1/2) :
    rne q = n := by
  have hf : ⌊q⌋ = n := Int.floor_eq_iff.mpr ⟨h1, by linarith⟩
  unfold rne
  rw [hf]
  have h : q - (n:ℚ) < 1/2 := by linarith
  rw [if_pos h]

theorem rne_eq_of_gt_half (q : ℚ) (n : ℤ) (h1 : (n:ℚ) + 1/2 < q) (h2 : q < (n:ℚ) + 1) :
    rne q = n + 1 := by
  have hf : ⌊q⌋ = n := Int.floor_eq_iff.mpr ⟨by linarith, by linarith⟩
  unfold rne
  rw [hf]
  have hA : ¬ (q - (n:ℚ) < 1/2) := by push_neg; linarith
  have hB : 1/2 < q - (n:ℚ) := by linarith
  rw [if_neg hA, if_pos hB]

/-- Exponent of the binary64 ulp grid at magnitude `q` (53-bit significand). -/
def floatExp (q : ℚ) : ℤ := Int.log 2 q - 52

/-- The value of a nonnegative rational rounded to the nearest IEEE-754 binary64
value (positive normal range; overflow and subnormals are outside the range this
development exercises and are not modelled). -/
def floatRound (q : ℚ) : ℚ :=
  if q ≤ 0 then 0 else ((rne (q * 2 ^ (-floatExp q)) : ℤ) : ℚ) * 2 ^ floatExp q

theorem int_log_eq (q : ℚ) (e : ℤ) (hq : 0 < q)
    (h1 : (2:ℚ)^e ≤ q) (h2 : q < (2:ℚ)^(e+1)) : Int.log 2 q = e := by
  have ha := (Int.zpow_le_iff_le_log (b := 2) one_lt_two (x := e) hq).mp (by exact_mod_cast h1)
  have hb := (Int.lt_zpow_iff_log_lt (b := 2) one_lt_two (x := e + 1) hq).mp (by exact_mod_cast h2)
  omega

theorem floatRound_eval (q s : ℚ) (e m : ℤ) (hq : 0 < q)
    (hse : q = s * 2 ^ e)
    (h1 : (4503599627370496 : ℚ) ≤ s) (h2 : s < (9007199254740992 : ℚ))
    (hm : rne s = m) :
    floatRound q = (m : ℚ) * 2 ^ e := by
  have h2pos : (0:ℚ) < 2 ^ e := zpow_pos (by norm_num) e
  have h52 : (2:ℚ)^(52:ℤ) = 4503599627370496 := by norm_num
  have h53 : (2:ℚ)^(53:ℤ) = 9007199254740992 := by norm_num
  have hlog : Int.log 2 q = e + 52 := by
    apply int_log_eq q (e + 52) hq
    · calc (2:ℚ)^(e+52) = 2^(52:ℤ) * 2^e := by
            rw [← zpow_add₀ (two_ne_zero : (2:ℚ) ≠ 0)]; congr 1; ring
      _ ≤ s * 2^e := by
            apply mul_le_mul_of_nonneg_right _ (le_of_lt h2pos)
            rw [h52]; exact h1
      _ = q := hse.symm
    · calc q = s * 2^e := hse
      _ < 2^(53:ℤ) * 2^e := by
            apply mul_lt_mul_of_pos_right _ h2pos
            rw [h53]; exact h2
      _ = 2^(e + 52 + 1) := by
            rw [← zpow_add₀ (two_ne_zero : (2:ℚ) ≠ 0)]; congr 1; ring
  have he : floatExp q = e := by unfold floatExp; omega
  unfold floatRound
  rw [if_neg (not_le.mpr hq), he]
  have hs : q * 2 ^ (-e) = s := by
    rw [hse, zpow_neg, mul_assoc, mul_inv_cancel₀ (ne_of_gt h2pos), mul_one]
  rw [hs, hm]

theorem floatRound_err (q : ℚ) (hq : 0 < q) : |floatRound q - q| ≤ q / 2 ^ 53 := by
  unfold floatRound
  rw [if_neg (not_le.mpr hq)]
  set e := floatExp q with he
  have h2pos : (0:ℚ) < 2 ^ e := zpow_pos (by norm_num) e
  have key : |(rne (q * 2^(-e)) : ℚ) - q * 2^(-e)| ≤ 1/2 := rne_sub_abs _
  have hsplit : (rne (q * 2^(-e)) : ℚ) * 2^e - q
      = ((rne (q * 2^(-e)) : ℚ) - q * 2^(-e)) * 2^e := by
    rw [sub_mul, mul_assoc, ← zpow_add₀ (two_ne_zero : (2:ℚ) ≠ 0)]
    norm_num
  rw [hsplit, abs_mul, abs_of_pos h2pos]
  have step : |(rne (q * 2^(-e)) : ℚ) - q * 2^(-e)| * 2^e ≤ (1/2) * 2^e :=
    mul_le_mul_of_nonneg_right key (le_of_lt h2pos)
  refine step.trans ?_
  have hlog : (2:ℚ) ^ (Int.log 2 q) ≤ q := by
    have := Int.zpow_log_le_self (b := 2) (R := ℚ) one_lt_two hq
    exact_mod_cast this
  calc (1/2:ℚ) * 2^e = 2^(Int.log 2 q) * 2^(-53:ℤ) := by
        rw [he]
        unfold floatExp
        rw [show (1/2:ℚ) = 2^(-1:ℤ) by norm_num,
            ← zpow_add₀ (two_ne_zero : (2:ℚ) ≠ 0),
            ← zpow_add₀ (two_ne_zero : (2:ℚ) ≠ 0)]
        congr 1
        ring
  _ ≤ q * 2^(-53:ℤ) := mul_le_mul_of_nonneg_right hlog (le_of_lt (zpow_pos (by norm_num) _))
  _ = q / 2^53 := by
        rw [zpow_neg, div_eq_mul_inv]
        norm_num

theorem floatRound_nonneg (q : ℚ) : 0 ≤ floatRound q := by
  unfold floatRound
  split_ifs with h
  · exact le_refl 0
  · push_neg at h
    have hr : (0:ℚ) ≤ (rne (q * 2^(-floatExp q)) : ℤ) := by
      exact_mod_cast rne_nonneg _ (by positivity)
    exact mul_nonneg (by exact_mod_cast hr) (le_of_lt (zpow_pos (by norm_num) _))

theorem floatRound_dyadic (m : ℕ) (j : ℤ) (hm : m < 2^53) :
    floatRound ((m:ℚ) * 2^j) = (m:ℚ) * 2^j := by
  rcases Nat.eq_zero_or_pos m with h0 | h0
  · subst h0
    simp [floatRound]
  · have hq : (0:ℚ) < (m:ℚ) * 2^j := by positivity
    have hup : (m:ℚ) * 2^j < 2^(j + 53) := by
      have hm' : (m:ℚ) < 2^(53:ℕ) := by exact_mod_cast hm
      calc (m:ℚ) * 2^j < (2:ℚ)^(53:ℕ) * 2^j :=
            mul_lt_mul_of_pos_right hm' (zpow_pos (by norm_num) j)
      _ = 2^(j+53) := by
            have h53 : ((53:ℕ):ℤ) + j = j + 53 := by omega
            rw [← zpow_natCast (2:ℚ) 53, ← zpow_add₀ (two_ne_zero : (2:ℚ) ≠ 0), h53]
    set L := Int.log 2 ((m:ℚ) * 2^j) with hL
    have hLle : L ≤ j + 52 := by
      have := (Int.lt_zpow_iff_log_lt (b := 2) one_lt_two (x := j + 53) hq).mp
        (by exact_mod_cast hup)
      omega
    set e := L - 52 with he
    have hk : (0:ℤ) ≤ j - e := by omega
    obtain ⟨k, hk2⟩ := Int.eq_ofNat_of_zero_le hk
    have hje : j + -e = (k:ℤ) := by omega
    have hpow : (2:ℚ)^j * 2^(-e) = 2^(k:ℕ) := by
      rw [← zpow_add₀ (two_ne_zero : (2:ℚ) ≠ 0), hje, zpow_natCast]
    have hcast : (m:ℚ) * 2^(k:ℕ) = ((m * 2^k : ℕ) : ℚ) := by push_cast; ring
    have hrne : rne ((m:ℚ) * 2^j * 2^(-e)) = ((m * 2^k : ℕ) : ℤ) := by
      rw [mul_assoc, hpow, hcast]
      exact_mod_cast rne_intCast ((m * 2^k : ℕ) : ℤ)
    have hfe : floatExp ((m:ℚ) * 2^j) = e := by
      unfold floatExp
      omega
    unfold floatRound
    rw [if_neg (not_le.mpr hq), hfe, hrne]
    push_cast
    rw [mul_assoc, ← zpow_natCast (2:ℚ) k, ← zpow_add₀ (two_ne_zero : (2:ℚ) ≠ 0)]
    have hkej : (k:ℤ) + e = j := by omega
    rw [hkej]

/-! ## Embedding of `bot.py`

Addresses are strings, as in the source.  The dummy chain client resolves
`balanceOf` / `get_transaction_count` / `get_block("latest")["timestamp"]` /
`send_raw_transaction` by `random.randint` or `time.time()`; each such call is
modelled as consuming the next value of the corresponding `Oracle` stream, and
is recorded in the run's event trace in program order. -/

abbrev Address := String

/-- `DummyWeb3.to_checksum_address` (bot.py line 43-44): returns its argument
unchanged — the dummy performs no checksum normalization. -/
def to_checksum_address (a : Address) : Address := a

def ROUTER_ADDRESS : Address := "0x7a250d5630B4cF539739dF2C5dAcb4c659F2488D"

def WETH_ADDRESS : Address := "0xC02aaA39b223FE8D0A0e5C4F27eAD9083C756Cc2"

/-- Truncation toward zero, Python `int()` applied to a float value. -/
def pyTrunc (q : ℚ) : ℤ := if 0 ≤ q then ⌊q⌋ else -⌊-q⌋

/-- CPython `int / int` true division: the correctly rounded binary64 value of
the exact quotient. -/
def pyDiv (n d : ℕ) : ℚ := floatRound ((n : ℚ) / (d : ℚ))

/-- `_to_wei` (bot.py lines 15-20): `int(float(val) * 10**18)` for "ether",
`int(float(val) * 10**9)` for "gwei", `int(val)` otherwise.  `float(val)` is the
binary64 value nearest `val`; the multiplication by the exactly representable
power of ten is one more correctly rounded binary64 operation. -/
def _to_wei (val : ℚ) (unit : String) : ℤ :=
  if unit = "ether" then pyTrunc (floatRound (floatRound val * 10^18))
  else if unit = "gwei" then pyTrunc (floatRound (floatRound val * 10^9))
  else pyTrunc val

/-- The display-unit conversion at bot.py line 179: `raw_balance / (10 ** decimals)`,
a correctly rounded binary64 division. -/
def toDisplayUnits (b : ℤ) (decimals : ℕ) : ℚ := floatRound ((b : ℚ) / (10:ℚ)^decimals)

/-- Zero-pad a fractional part (0 ≤ k < 10000) to exactly four digits. -/
def pad4 (k : ℕ) : String :=
  if k < 10 then "000" ++ toString k
  else if k < 100 then "00" ++ toString k
  else if k < 1000 then "0" ++ toString k
  else toString k

/-- Render `n` (an amount premultiplied by 10^4 and rounded) with exactly four
fraction digits. -/
def render4 (n : ℕ) : String := toString (n / 10^4) ++ "." ++ pad4 (n % 10^4)

/-- Python `f"{v:.4f}"` for a nonnegative binary64 value `v`: round the exact
value of `v` to four decimal places, ties to even. -/
def fmt4 (v : ℚ) : String := render4 (rne (v * 10^4)).toNat

/-- Streams of values that the dummy chain client produces: each
`random.randint` / `time.time()` call consumes the next entry of its stream.
`account` is the module-level `ADDRESS` (a randomly generated hex string). -/
structure Oracle where
  account : Address
  balances : Nat → Nat
  nonces : Nat → Nat
  times : Nat → Nat
  hashes : Nat → String

/-- One external interaction of a run, recorded in program order. -/
inductive Event where
  | callBalanceOf (owner : Address) (ret : Nat)
  | callDecimals (ret : Nat)
  | callSymbol (ret : String)
  | getTransactionCount (addr : Address) (ret : Nat)
  | getBlockTimestamp (ret : Nat)
  | buildApproveTx (spender : Address) (value : Int) (nonce : Nat)
  | buildBuySwapTx (amountOutMin : Nat) (path : List Address) (toAddr : Address)
      (deadline : Nat) (nonce : Nat)
  | buildSellSwapTx (amountIn : Int) (amountOutMin : Nat) (path : List Address)
      (toAddr : Address) (deadline : Nat) (nonce : Nat)
  | signTx
  | sendRawTransaction
  deriving DecidableEq

/-- Chain reads through the dummy `LedgerClient` (contract calls, nonce reads,
timestamp reads). -/
def Event.isChainRead : Event → Bool
  | .callBalanceOf _ _ => true
  | .callDecimals _ => true
  | .callSymbol _ => true
  | .getTransactionCount _ _ => true
  | .getBlockTimestamp _ => true
  | _ => false

def Event.isSubmit : Event → Bool
  | .sendRawTransaction => true
  | _ => false

def Event.isSellSwapBuild : Event → Bool
  | .buildSellSwapTx _ _ _ _ _ _ => true
  | _ => false

def Event.isApproveBuild : Event → Bool
  | .buildApproveTx _ _ _ => true
  | _ => false

def Event.isSigning : Event → Bool
  | .signTx => true
  | _ => false

def Event.isNonceRead : Event → Bool
  | .getTransactionCount _ _ => true
  | _ => false

/-- The transaction dict produced by `DummyFunction.build_transaction`
(bot.py lines 69-82): missing "to" defaults to "0xDummy", missing "value" to 0,
"data" is the placeholder string.  The extra `build_template` keys duplicate
the call-argument records carried separately by each run. -/
structure TxDict where
  fromAddr : Address
  toAddr : Address
  value : Int
  gas : Nat
  gasPrice : Int
  nonce : Nat
  data : String
  deriving DecidableEq

/-- Arguments of the `swapExactETHForTokens` router call (bot.py lines 189-194). -/
structure BuySwapArgs where
  amountOutMin : Nat
  path : List Address
  toAddr : Address
  deadline : Nat
  deriving DecidableEq

/-- Arguments of the `swapExactTokensForETH` router call (bot.py lines 255-261). -/
structure SellSwapArgs where
  amountIn : Int
  amountOutMin : Nat
  path : List Address
  toAddr : Address
  deadline : Nat
  deriving DecidableEq

/-- Arguments of the ERC20 `approve` call (bot.py line 241). -/
structure ApproveArgs where
  spender : Address
  value : Int
  deriving DecidableEq

structure CheckRun where
  ret : String
  balanceRead : Nat
  trace : List Event

structure BuyRun where
  ret : String
  swapCall : BuySwapArgs
  tx : TxDict
  trace : List Event

structure SellRun where
  ret : String
  balanceRead : Nat
  sellAmount : Int
  approveCall : ApproveArgs
  approveTx : TxDict
  swapCall : SellSwapArgs
  swapTx : TxDict
  trace : List Event

/-- `check_token_balance` (bot.py lines 149-181).  The dummy token contract
returns a random balance (oracle stream), `decimals = 18` and `symbol = "TOK"`
(constants in `DummyFunction.call`). -/
def check_token_balance (o : Oracle) (token_address : Address) : CheckRun :=
  let token := to_checksum_address token_address
  let raw_balance := o.balances 0
  let decimals := 18
  let symbol := "TOK"
  let balance := toDisplayUnits (raw_balance : ℤ) decimals
  { ret := fmt4 balance ++ " " ++ symbol
    balanceRead := raw_balance
    trace := [.callBalanceOf o.account raw_balance, .callDecimals decimals,
              .callSymbol symbol] }

/-- `swap_buy` (bot.py lines 183-204).  Program order: checksum the addresses,
build the path, read the latest block timestamp, compute the deadline, then
build the swap transaction (whose dict evaluates `to_wei` locally and reads the
account nonce), sign it and submit it. -/
def swap_buy (o : Oracle) (token_address : Address) (eth_amount : ℚ) : BuyRun :=
  let ADDRESS := o.account
  let token := to_checksum_address token_address
  let path := [to_checksum_address WETH_ADDRESS, token]
  let now := o.times 0
  let deadline := now + 1200
  let value := _to_wei eth_amount "ether"
  let gasPrice := _to_wei 5 "gwei"
  let nonce := o.nonces 0
  { ret := "Buy Tx Sent: " ++ ("0x" ++ o.hashes 0)
    swapCall := { amountOutMin := 0, path := path, toAddr := ADDRESS, deadline := deadline }
    tx := { fromAddr := ADDRESS, toAddr := "0xDummy", value := value, gas := 250000,
            gasPrice := gasPrice, nonce := nonce, data := "<dummy_data>" }
    trace := [.getBlockTimestamp now,
              .getTransactionCount ADDRESS nonce,
              .buildBuySwapTx 0 path ADDRESS deadline nonce,
              .signTx, .sendRawTransaction] }

/-- `swap_sell` (bot.py lines 206-269).  Program order: read balance and
decimals, compute `sell_amount = int(balance * percentage / 100)` (binary64
division), read the nonce and build/sign/submit the approve transaction, then
read the timestamp, read the nonce again, build/sign/submit the sell swap. -/
def swap_sell (o : Oracle) (token_address : Address) (percentage : Nat) : SellRun :=
  let ADDRESS := o.account
  let token := to_checksum_address token_address
  let balance := o.balances 0
  let decimals := 18
  let sell_amount := pyTrunc (pyDiv (balance * percentage) 100)
  let gasPrice := _to_wei 5 "gwei"
  let approveNonce := o.nonces 0
  let path := [token, to_checksum_address WETH_ADDRESS]
  let now := o.times 0
  let deadline := now + 1200
  let swapNonce := o.nonces 1
  { ret := "Sell Tx Sent: " ++ ("0x" ++ o.hashes 1)
    balanceRead := balance
    sellAmount := sell_amount
    approveCall := { spender := to_checksum_address ROUTER_ADDRESS, value := sell_amount }
    approveTx := { fromAddr := ADDRESS, toAddr := "0xDummy", value := 0, gas := 80000,
                   gasPrice := gasPrice, nonce := approveNonce, data := "<dummy_data>" }
    swapCall := { amountIn := sell_amount, amountOutMin := 0, path := path,
                  toAddr := ADDRESS, deadline := deadline }
    swapTx := { fromAddr := ADDRESS, toAddr := "0xDummy", value := 0, gas := 250000,
                gasPrice := gasPrice, nonce := swapNonce, data := "<dummy_data>" }
    trace := [.callBalanceOf ADDRESS balance, .callDecimals decimals,
              .getTransactionCount ADDRESS approveNonce,
              .buildApproveTx (to_checksum_address ROUTER_ADDRESS) sell_amount approveNonce,
              .signTx, .sendRawTransaction,
              .getBlockTimestamp now,
              .getTransactionCount ADDRESS swapNonce,
              .buildSellSwapTx sell_amount 0 path ADDRESS deadline swapNonce,
              .signTx, .sendRawTransaction] }

/-! ## Concrete oracles used for witnesses and counterexamples -/

/-- Oracle with balance 200, consecutive nonces 5, 6, ..., timestamp 1000. -/
def oracleW : Oracle :=
  { account := "0xA11CE", balances := fun _ => 200, nonces := fun i => 5 + i,
    times := fun _ => 1000, hashes := fun _ => "ab" }

/-- Same as `oracleW` but with timestamp 2000 (a later block). -/
def oracleW2 : Oracle :=
  { account := "0xA11CE", balances := fun _ => 200, nonces := fun i => 5 + i,
    times := fun _ => 2000, hashes := fun _ => "cd" }

/-- Oracle whose nonce stream returns 5, then 9: two legal outputs of
`random.randint(0, 20)` that are not one apart. -/
def oracleC1 : Oracle :=
  { account := "0xA11CE", balances := fun _ => 200, nonces := fun i => 5 + 4 * i,
    times := fun _ => 1000, hashes := fun _ => "ab" }

/-- Oracle whose balance 999999999999999999 = 10^18 - 1 (a legal output of
`random.randint(1, 10**18)`) is not exactly representable in binary64. -/
def oracleC4 : Oracle :=
  { account := "0xA11CE", balances := fun _ => 999999999999999999, nonces := fun _ => 7,
    times := fun _ => 1000, hashes := fun _ => "ab" }

/-- Oracle with balance 1000 base units (the spec's end-to-end scenario). -/
def oracleC10 : Oracle :=
  { account := "0xA11CE", balances := fun _ => 1000, nonces := fun _ => 7,
    times := fun _ => 1000, hashes := fun _ => "ab" }

/-! ## Claim theorems -/

/-- **C1** (amended).  The approve transaction uses the first transaction-count
read and the sell swap the second; the second read happens only after the
approve submission (exactly one submission and one nonce read precede it in the
trace), but the code applies no local increment: the two nonces are one apart
exactly when the ledger's second report is one more than its first. -/
theorem c1_nonce_discipline (o : Oracle) (tok : Address) (pct : ℕ)
    (hov : o.balances 0 * pct < 2^1024) :
    (swap_sell o tok pct).approveTx.nonce = o.nonces 0 ∧
    (swap_sell o tok pct).swapTx.nonce = o.nonces 1 ∧
    (∃ pre post, (swap_sell o tok pct).trace
        = pre ++ Event.getTransactionCount o.account (o.nonces 1) :: post ∧
      pre.countP Event.isSubmit = 1 ∧ pre.countP Event.isNonceRead = 1) ∧
    (o.nonces 1 = o.nonces 0 + 1 →
      (swap_sell o tok pct).swapTx.nonce = (swap_sell o tok pct).approveTx.nonce + 1) := by
  refine ⟨rfl, rfl, ⟨[.callBalanceOf o.account (o.balances 0), .callDecimals 18,
      .getTransactionCount o.account (o.nonces 0),
      .buildApproveTx (to_checksum_address ROUTER_ADDRESS)
        (pyTrunc (pyDiv (o.balances 0 * pct) 100)) (o.nonces 0),
      .signTx, .sendRawTransaction, .getBlockTimestamp (o.times 0)],
      [.buildSellSwapTx (pyTrunc (pyDiv (o.balances 0 * pct) 100)) 0
        [to_checksum_address tok, to_checksum_address WETH_ADDRESS] o.account
        (o.times 0 + 1200) (o.nonces 1), .signTx, .sendRawTransaction],
      rfl, ?_, ?_⟩, fun h => ?_⟩
  · simp [List.countP_cons, Event.isSubmit]
  · simp [List.countP_cons, Event.isNonceRead]
  · exact h

/-- **C1** counterexample.  With a ledger whose two transaction-count reads
return 5 and then 9 (both legal outputs of the dummy's `random.randint(0, 20)`,
which does not account for the pending approve), the approve nonce is 5 and the
swap nonce 9: the claimed invariant "swap nonce = approve nonce + 1" fails. -/
theorem c1_counterexample :
    (swap_sell oracleC1 "0xToken" 50).approveTx.nonce = 5 ∧
    (swap_sell oracleC1 "0xToken" 50).swapTx.nonce = 9 ∧
    ¬ ((swap_sell oracleC1 "0xToken" 50).swapTx.nonce
        = (swap_sell oracleC1 "0xToken" 50).approveTx.nonce + 1) :=
  ⟨rfl, rfl, by decide⟩

theorem c1_nonce_discipline_witness :
    oracleW.balances 0 * 50 < 2^1024 ∧
    ((swap_sell oracleW "0xToken" 50).approveTx.nonce = oracleW.nonces 0 ∧
     (swap_sell oracleW "0xToken" 50).swapTx.nonce = oracleW.nonces 1 ∧
     (∃ pre post, (swap_sell oracleW "0xToken" 50).trace
         = pre ++ Event.getTransactionCount oracleW.account (oracleW.nonces 1) :: post ∧
       pre.countP Event.isSubmit = 1 ∧ pre.countP Event.isNonceRead = 1) ∧
     (oracleW.nonces 1 = oracleW.nonces 0 + 1 →
       (swap_sell oracleW "0xToken" 50).swapTx.nonce
         = (swap_sell oracleW "0xToken" 50).approveTx.nonce + 1)) :=
  ⟨by decide, c1_nonce_discipline oracleW "0xToken" 50 (by decide)⟩

/-- **C2** (confirmed).  In every `swap_sell` trace the (unique) sell-swap build
event is preceded by exactly one approve build, one signing and one submission
— the approve's — and the remaining (swap) submission comes after it: the swap
is never built or submitted before the approve has been signed, submitted and
the submission call has returned. -/
theorem c2_approve_before_swap (o : Oracle) (tok : Address) (pct : ℕ) :
    ∃ pre post amtIn minOut path toA dl n,
      (swap_sell o tok pct).trace
        = pre ++ Event.buildSellSwapTx amtIn minOut path toA dl n :: post ∧
      pre.countP Event.isSellSwapBuild = 0 ∧
      pre.countP Event.isApproveBuild = 1 ∧
      pre.countP Event.isSigning = 1 ∧
      pre.countP Event.isSubmit = 1 ∧
      post.countP Event.isSubmit = 1 ∧
      post.countP Event.isSellSwapBuild = 0 := by
  refine ⟨[.callBalanceOf o.account (o.balances 0), .callDecimals 18,
      .getTransactionCount o.account (o.nonces 0),
      .buildApproveTx (to_checksum_address ROUTER_ADDRESS)
        (pyTrunc (pyDiv (o.balances 0 * pct) 100)) (o.nonces 0),
      .signTx, .sendRawTransaction, .getBlockTimestamp (o.times 0),
      .getTransactionCount o.account (o.nonces 1)],
      [.signTx, .sendRawTransaction],
      pyTrunc (pyDiv (o.balances 0 * pct) 100), 0,
      [to_checksum_address tok, to_checksum_address WETH_ADDRESS], o.account,
      o.times 0 + 1200, o.nonces 1, rfl, ?_, ?_, ?_, ?_, ?_, ?_⟩ <;>
    simp [List.countP_cons, Event.isSellSwapBuild, Event.isApproveBuild,
      Event.isSigning, Event.isSubmit]

/-- **C3** counterexample.  `swap_sell` with percentage 150 (outside [0, 100])
does not fail: it performs its five chain reads and submits both transactions,
returning the normal success string — there is no `InvalidPercentage`
validation in the code. -/
theorem c3_counterexample :
    100 < 150 ∧
    (swap_sell oracleW "0xToken" 150).trace.countP Event.isChainRead = 5 ∧
    (swap_sell oracleW "0xToken" 150).ret = "Sell Tx Sent: 0xab" := by
  refine ⟨by norm_num, ?_, rfl⟩
  simp [swap_sell, List.countP_cons, Event.isChainRead]

/-- **C3** (amended).  `swap_sell` performs no percentage validation: for any
percentage — in range or not — it proceeds through the normal flow, performing
its five ledger reads and returning the success string (stated for inputs where
the balance·percentage product stays below the binary64 overflow threshold
2^1024, past which CPython would raise `OverflowError` at `int()`). -/
theorem c3_no_percentage_validation (o : Oracle) (tok : Address) (pct : ℕ)
    (hov : o.balances 0 * pct < 2^1024) :
    (swap_sell o tok pct).trace.countP Event.isChainRead = 5 ∧
    (swap_sell o tok pct).ret = "Sell Tx Sent: " ++ ("0x" ++ o.hashes 1) := by
  refine ⟨?_, rfl⟩
  simp [swap_sell, List.countP_cons, Event.isChainRead]

theorem c3_no_percentage_validation_witness :
    oracleW.balances 0 * 150 < 2^1024 ∧
    ((swap_sell oracleW "0xToken" 150).trace.countP Event.isChainRead = 5 ∧
     (swap_sell oracleW "0xToken" 150).ret = "Sell Tx Sent: " ++ ("0x" ++ oracleW.hashes 1)) :=
  ⟨by decide, c3_no_percentage_validation oracleW "0xToken" 150 (by decide)⟩

/-- **C5** (confirmed).  Both `swap_buy` and `swap_sell` compute the swap
deadline as the latest-block timestamp read during that very operation plus
exactly 1200 seconds; nothing is cached, so two operations observing different
timestamps necessarily use different deadlines. -/
theorem c5_deadline_fresh (o o' : Oracle) (tok tok' : Address) (amt : ℚ) (pct : ℕ) :
    (swap_buy o tok amt).swapCall.deadline = o.times 0 + 1200 ∧
    (∃ pre post, (swap_buy o tok amt).trace
        = pre ++ Event.getBlockTimestamp (o.times 0) :: post) ∧
    (swap_sell o' tok' pct).swapCall.deadline = o'.times 0 + 1200 ∧
    (∃ pre post, (swap_sell o' tok' pct).trace
        = pre ++ Event.getBlockTimestamp (o'.times 0) :: post) ∧
    (o.times 0 ≠ o'.times 0 →
      (swap_buy o tok amt).swapCall.deadline ≠ (swap_sell o' tok' pct).swapCall.deadline) := by
  refine ⟨rfl, ⟨[], _, rfl⟩,
    rfl, ⟨[.callBalanceOf o'.account (o'.balances 0), .callDecimals 18,
      .getTransactionCount o'.account (o'.nonces 0),
      .buildApproveTx (to_checksum_address ROUTER_ADDRESS)
        (pyTrunc (pyDiv (o'.balances 0 * pct) 100)) (o'.nonces 0),
      .signTx, .sendRawTransaction], _, rfl⟩, fun h hc => h ?_⟩
  have hc' : o.times 0 + 1200 = o'.times 0 + 1200 := hc
  omega

theorem c5_deadline_fresh_witness :
    oracleW.times 0 ≠ oracleW2.times 0 ∧
    (swap_buy oracleW "0xToken" (1/100)).swapCall.deadline
      ≠ (swap_sell oracleW2 "0xToken" 50).swapCall.deadline :=
  ⟨by decide,
   (c5_deadline_fresh oracleW oracleW2 "0xToken" "0xToken" (1/100) 50).2.2.2.2 (by decide)⟩

/-- **C6** (confirmed).  Every buy swap is built with path
[wrapped-native, output token] and every sell swap with path
[input token, wrapped-native]. -/
theorem c6_swap_paths (o o' : Oracle) (tok tok' : Address) (amt : ℚ) (pct : ℕ) :
    (swap_buy o tok amt).swapCall.path = [WETH_ADDRESS, tok] ∧
    (swap_sell o' tok' pct).swapCall.path = [tok', WETH_ADDRESS] :=
  ⟨rfl, rfl⟩

/-- **C7** (confirmed).  Both router swap calls are built with
`amountOutMin = 0` (the literal in the source), and the zero floor is accepted
unconditionally: the operation always proceeds to submission (one submission
for a buy, two for a sell) with no slippage computation anywhere. -/
theorem c7_zero_min_out (o o' : Oracle) (tok tok' : Address) (amt : ℚ) (pct : ℕ)
    (hov : o'.balances 0 * pct < 2^1024) :
    (swap_buy o tok amt).swapCall.amountOutMin = 0 ∧
    (swap_sell o' tok' pct).swapCall.amountOutMin = 0 ∧
    (swap_buy o tok amt).trace.countP Event.isSubmit = 1 ∧
    (swap_sell o' tok' pct).trace.countP Event.isSubmit = 2 := by
  refine ⟨rfl, rfl, ?_, ?_⟩ <;>
    simp [swap_buy, swap_sell, List.countP_cons, Event.isSubmit]

theorem c7_zero_min_out_witness :
    oracleW.balances 0 * 50 < 2^1024 ∧
    ((swap_buy oracleW2 "0xToken" (1/100)).swapCall.amountOutMin = 0 ∧
     (swap_sell oracleW "0xToken" 50).swapCall.amountOutMin = 0 ∧
     (swap_buy oracleW2 "0xToken" (1/100)).trace.countP Event.isSubmit = 1 ∧
     (swap_sell oracleW "0xToken" 50).trace.countP Event.isSubmit = 2) :=
  ⟨by decide, c7_zero_min_out oracleW2 oracleW "0xToken" "0xToken" (1/100) 50 (by decide)⟩

/-! ## Arithmetic helper lemmas for the float pipeline -/

theorem pyTrunc_eq_floor (q : ℚ) (h : 0 ≤ q) : pyTrunc q = ⌊q⌋ := if_pos h

theorem floatRound_zero : floatRound 0 = 0 := by simp [floatRound]

theorem floatRound_err' (q : ℚ) (hq : 0 ≤ q) : |floatRound q - q| ≤ q / 2^53 := by
  rcases eq_or_lt_of_le hq with h | h
  · rw [← h, floatRound_zero]
    norm_num
  · exact floatRound_err q h

/-- For products below 2^53 the binary64 division inside
`int(balance * percentage / 100)` cannot cross an integer boundary: the Python
value equals the mathematical floor. -/
theorem pyTrunc_pyDiv_eq_div (n : ℕ) (h : n < 2^53) :
    pyTrunc (pyDiv n 100) = ((n / 100 : ℕ) : ℤ) := by
  have hnn : (0:ℚ) ≤ pyDiv n 100 := floatRound_nonneg _
  rw [pyTrunc_eq_floor _ hnn]
  simp only [pyDiv, Nat.cast_ofNat]
  rcases Nat.eq_zero_or_pos n with h0 | hpos
  · subst h0
    norm_num [floatRound_zero]
  rcases Nat.eq_zero_or_pos (n % 100) with hr0 | hrpos
  · -- exact case: 100 divides n, the quotient is an integer below 2^53
    obtain ⟨k, hk⟩ := Nat.dvd_of_mod_eq_zero hr0
    have hkb : k < 2^53 := by
      have : k ≤ n := by omega
      omega
    have hq : (n:ℚ)/100 = (k:ℚ) := by
      have hn : (n:ℚ) = 100 * (k:ℚ) := by exact_mod_cast hk
      rw [hn, mul_comm, mul_div_assoc]
      norm_num
    have hfr : floatRound ((n:ℚ)/100) = (k:ℚ) := by
      rw [hq]
      have hd := floatRound_dyadic k 0 hkb
      simpa using hd
    rw [hfr, Int.floor_natCast, hk]
    have : 100 * k / 100 = k := by omega
    rw [this]
  · -- inexact case: the half-ulp error is below 1/100, the floor is unchanged
    have hn0 : (0:ℚ) < (n:ℚ) := by exact_mod_cast hpos
    have hq_pos : (0:ℚ) < (n:ℚ)/100 := by positivity
    have herr := floatRound_err ((n:ℚ)/100) hq_pos
    have hn53 : (n:ℚ) < 2^53 := by exact_mod_cast h
    have hsmall : (n:ℚ)/100/2^53 < 1/100 := by
      rw [div_div, div_lt_div_iff (by positivity) (by norm_num)]
      nlinarith
    have hd : 100 * (n / 100) + n % 100 = n := Nat.div_add_mod n 100
    have hqval : (n:ℚ)/100 = ((n/100 : ℕ):ℚ) + ((n % 100 : ℕ):ℚ)/100 := by
      have hn : (n:ℚ) = 100*((n/100 : ℕ):ℚ) + ((n % 100 : ℕ):ℚ) := by exact_mod_cast hd.symm
      rw [hn]
      ring
    have hr1 : (1:ℚ) ≤ ((n % 100 : ℕ):ℚ) := by exact_mod_cast hrpos
    have hr99 : ((n % 100 : ℕ):ℚ) ≤ 99 := by
      have : n % 100 ≤ 99 := by omega
      exact_mod_cast this
    have habs := abs_le.mp herr
    have hlb : ((n/100 : ℕ):ℚ) ≤ floatRound ((n:ℚ)/100) := by
      nlinarith [habs.1, hsmall, hqval]
    have hub : floatRound ((n:ℚ)/100) < ((n/100 : ℕ):ℚ) + 1 := by
      nlinarith [habs.2, hsmall, hqval]
    have hfl : ⌊floatRound ((n:ℚ)/100)⌋ = ((n/100 : ℕ) : ℤ) := by
      apply Int.floor_eq_iff.mpr
      constructor
      · exact_mod_cast hlb
      · push_cast
        exact hub
    exact hfl

/-- **C4** (amended).  When `balance * percentage < 2^53` — the range in which
the binary64 quotient stays within 1/100 of the exact value — the computed sell
amount equals `floor(balance * percentage / 100)`, and for `percentage = 100`
it equals the full balance read at `ReadBalance` time.  (Outside that range the
float division can round across an integer, see the counterexample.) -/
theorem c4_sell_amount (o : Oracle) (tok : Address) (pct : ℕ)
    (h : o.balances 0 * pct < 2^53) :
    (swap_sell o tok pct).sellAmount = ((o.balances 0 * pct / 100 : ℕ) : ℤ) ∧
    (pct = 100 → (swap_sell o tok pct).sellAmount = (o.balances 0 : ℤ)) := by
  have hmain : (swap_sell o tok pct).sellAmount = ((o.balances 0 * pct / 100 : ℕ) : ℤ) :=
    pyTrunc_pyDiv_eq_div _ h
  refine ⟨hmain, fun hp => ?_⟩
  subst hp
  rw [hmain]
  have : o.balances 0 * 100 / 100 = o.balances 0 := by omega
  rw [this]

theorem c4_sell_amount_witness :
    oracleW.balances 0 * 50 < 2^53 ∧
    ((swap_sell oracleW "0xToken" 50).sellAmount = ((oracleW.balances 0 * 50 / 100 : ℕ) : ℤ) ∧
     (50 = 100 → (swap_sell oracleW "0xToken" 50).sellAmount = (oracleW.balances 0 : ℤ))) :=
  ⟨by decide, c4_sell_amount oracleW "0xToken" 50 (by decide)⟩

/-- **C4** counterexample.  With balance 10^18 - 1 (not representable in
binary64) and percentage 100, Python computes
`int((10^18-1) * 100 / 100) = 10^18`: one more than the mathematical
`floor(balance * percentage / 100) = balance`, because the correctly rounded
binary64 quotient of 10^18 - 1 is 10^18. -/
theorem c4_counterexample :
    (swap_sell oracleC4 "0xToken" 100).sellAmount = 10^18 ∧
    ((oracleC4.balances 0 * 100 / 100 : ℕ) : ℤ) = 10^18 - 1 ∧
    (swap_sell oracleC4 "0xToken" 100).sellAmount
      ≠ ((oracleC4.balances 0 * 100 / 100 : ℕ) : ℤ) := by
  have hrne : rne ((999999999999999999:ℚ)/128) = 7812500000000000 := by
    have h := rne_eq_of_gt_half ((999999999999999999:ℚ)/128) 7812499999999999
      (by norm_num) (by norm_num)
    norm_num at h
    exact h
  have hfr : floatRound ((999999999999999999:ℚ)) = 10^18 := by
    rw [floatRound_eval (999999999999999999:ℚ) ((999999999999999999:ℚ)/128) 7
      7812500000000000 (by norm_num) (by norm_num) (by norm_num) (by norm_num) hrne]
    norm_num
  have hsell : (swap_sell oracleC4 "0xToken" 100).sellAmount = 10^18 := by
    show pyTrunc (pyDiv (999999999999999999 * 100) 100) = 10^18
    have hq : ((999999999999999999 * 100 : ℕ):ℚ) / ((100:ℕ):ℚ) = (999999999999999999:ℚ) := by
      push_cast
      norm_num
    unfold pyDiv
    rw [hq, hfr, pyTrunc_eq_floor _ (by positivity)]
    rw [show ((10:ℚ)^18) = (((10^18:ℤ)):ℚ) by push_cast; ring]
    rw [Int.floor_intCast]
  refine ⟨hsell, by decide, ?_⟩
  rw [hsell]
  decide

/-- Error chain for the full convert-and-back pipeline
`toDisplayUnits(toBaseUnits(a)) `: three correctly rounded operations and one
floor, each contributing at most a half-ulp (bounded by `x/2^53`) or one base
unit (bounded by `1/E`). -/
theorem roundtrip_bound (a E : ℚ) (hE : 10^9 ≤ E) (h0 : 0 ≤ a) (h1 : a ≤ 2^36) :
    |floatRound (((pyTrunc (floatRound (floatRound a * E))) : ℚ) / E) - a| ≤ 1/10^4 := by
  have hEpos : (0:ℚ) < E := lt_of_lt_of_le (by norm_num) hE
  have hEinv : 1/E ≤ 1/10^9 := one_div_le_one_div_of_le (by norm_num) hE
  set x1 := floatRound a with hx1def
  have hx1nn : 0 ≤ x1 := floatRound_nonneg a
  have he1 : |x1 - a| ≤ a / 2^53 := floatRound_err' a h0
  have ha53 : a/2^53 ≤ a := div_le_self h0 (by norm_num)
  have hx1ub : x1 ≤ 2*a := by
    have := (abs_le.mp he1).2
    linarith
  set y := x1 * E with hydef
  have hynn : 0 ≤ y := mul_nonneg hx1nn (le_of_lt hEpos)
  set x2 := floatRound y with hx2def
  have hx2nn : 0 ≤ x2 := floatRound_nonneg y
  have he2 : |x2 - y| ≤ y / 2^53 := floatRound_err' y hynn
  have hfnn : (0:ℚ) ≤ (⌊x2⌋:ℚ) := by exact_mod_cast Int.floor_nonneg.mpr hx2nn
  have hfl : (⌊x2⌋:ℚ) ≤ x2 := Int.floor_le x2
  have hfg : x2 - 1 < (⌊x2⌋:ℚ) := Int.sub_one_lt_floor x2
  rw [pyTrunc_eq_floor _ hx2nn]
  set z := ((⌊x2⌋:ℚ)) / E with hzdef
  have hznn : 0 ≤ z := div_nonneg hfnn (le_of_lt hEpos)
  have he4 : |floatRound z - z| ≤ z / 2^53 := floatRound_err' z hznn
  have hyE : y / E = x1 := by field_simp
  have t2 : |x2/E - x1| ≤ x1/2^53 := by
    have e1 : x2/E - x1 = (x2 - y)/E := by
      rw [← hyE]
      ring
    rw [e1, abs_div, abs_of_pos hEpos]
    have h3' : (y/2^53)/E = x1/2^53 := by
      rw [div_div, mul_comm, ← div_div, hyE]
    calc |x2 - y|/E ≤ (y/2^53)/E := (div_le_div_right hEpos).mpr he2
    _ = x1/2^53 := h3'
  have t3 : |z - x2/E| ≤ 1/E := by
    have e1 : z - x2/E = ((⌊x2⌋:ℚ) - x2)/E := by
      rw [hzdef]
      ring
    rw [e1, abs_div, abs_of_pos hEpos]
    have habs1 : |(⌊x2⌋:ℚ) - x2| ≤ 1 := by
      rw [abs_le]
      constructor <;> linarith
    exact (div_le_div_right hEpos).mpr habs1
  have hx2E : x2/E ≤ x1 + x1/2^53 := by
    have := (abs_le.mp t2).2
    linarith
  have hzle : z ≤ x2/E := by
    rw [hzdef]
    exact (div_le_div_right hEpos).mpr hfl
  have hx153 : x1/2^53 ≤ x1 := div_le_self hx1nn (by norm_num)
  have hzub : z ≤ 4*a := by linarith
  have tri1 : |floatRound z - a|
      ≤ |floatRound z - z| + |z - x2/E| + |x2/E - x1| + |x1 - a| := by
    have a1 := abs_sub_le (floatRound z) z a
    have a2 := abs_sub_le z (x2/E) a
    have a3 := abs_sub_le (x2/E) x1 a
    linarith
  have hfin : |floatRound z - a| ≤ 7*a/2^53 + 1/E := by
    have b1 : |floatRound z - z| ≤ (4*a)/2^53 := by
      have : z/2^53 ≤ (4*a)/2^53 := by linarith
      linarith
    have b2 : |x2/E - x1| ≤ (2*a)/2^53 := by
      have : x1/2^53 ≤ (2*a)/2^53 := by linarith
      linarith
    linarith
  have hnum : 7*a/2^53 + 1/E ≤ 7*(2^36:ℚ)/2^53 + 1/10^9 := by
    have : 7*a/2^53 ≤ 7*(2^36:ℚ)/2^53 := by linarith
    linarith
  exact le_trans hfin (le_trans hnum (by norm_num))

/-- **C8** (amended).  The code's unit conversion is binary64 arithmetic, so the
round-trip law holds only on a bounded range: for `0 ≤ amount ≤ 2^36` (about
6.9·10^10 whole tokens) and exponent 18 ("ether") or 9 ("gwei"), converting to
base units and back lands within 10^-4 of the original amount.  (For larger
amounts the float rounding alone exceeds 10^-4, see the counterexample.) -/
theorem c8_roundtrip (a : ℚ) (u : String) (d : ℕ)
    (hud : (u = "ether" ∧ d = 18) ∨ (u = "gwei" ∧ d = 9))
    (h0 : 0 ≤ a) (h1 : a ≤ 2^36) :
    |toDisplayUnits (_to_wei a u) d - a| ≤ 1/10^4 := by
  rcases hud with ⟨hu, hd⟩ | ⟨hu, hd⟩ <;> subst hu <;> subst hd
  · have h := roundtrip_bound a ((10:ℚ)^18) (by norm_num) h0 h1
    simpa [_to_wei, toDisplayUnits] using h
  · have h := roundtrip_bound a ((10:ℚ)^9) (by norm_num) h0 h1
    simpa [_to_wei, toDisplayUnits] using h

theorem c8_roundtrip_witness :
    ((("ether":String) = "ether" ∧ (18:ℕ) = 18) ∨ (("ether":String) = "gwei" ∧ (18:ℕ) = 9)) ∧
    (0:ℚ) ≤ 1/100 ∧ (1/100:ℚ) ≤ 2^36 ∧
    |toDisplayUnits (_to_wei (1/100) "ether") 18 - 1/100| ≤ 1/10^4 :=
  ⟨Or.inl ⟨rfl, rfl⟩, by norm_num, by norm_num,
   c8_roundtrip (1/100) "ether" 18 (Or.inl ⟨rfl, rfl⟩) (by norm_num) (by norm_num)⟩

/-- **C8** counterexample.  For `amount = 9·10^12 + 0.0009` and exponent 9
("gwei"), `float(amount)` already rounds to `9·10^12` (the ulp at that
magnitude is 2^-9 ≈ 0.00195), so the round trip returns exactly `9·10^12`,
an error of 9·10^-4 > 10^-4: the claimed law fails for unbounded amounts. -/
theorem c8_counterexample :
    ¬ (|toDisplayUnits (_to_wei (9 * 10^12 + 9/10^4) "gwei") 9
        - (9 * 10^12 + 9/10^4 : ℚ)| ≤ 1/10^4) := by
  have hrne1 : rne ((4608000000000000 + 4608/10^4 : ℚ)) = 4608000000000000 :=
    rne_eq_of_lt_half _ 4608000000000000 (by norm_num) (by norm_num)
  have hx1 : floatRound ((9:ℚ) * 10^12 + 9/10^4) = 9 * 10^12 := by
    rw [floatRound_eval ((9:ℚ) * 10^12 + 9/10^4) (4608000000000000 + 4608/10^4 : ℚ) (-9)
      4608000000000000 (by norm_num) (by norm_num) (by norm_num) (by norm_num) hrne1]
    norm_num
  have hrne2 : rne ((8583068847656250 : ℚ)) = 8583068847656250 := by
    have h := rne_intCast 8583068847656250
    exact_mod_cast h
  have hx2 : floatRound ((9:ℚ) * 10^12 * 10^9) = 9 * 10^21 := by
    rw [show (9:ℚ) * 10^12 * 10^9 = 9 * 10^21 by norm_num]
    rw [floatRound_eval ((9:ℚ) * 10^21) (8583068847656250 : ℚ) 20 8583068847656250
      (by norm_num) (by norm_num) (by norm_num) (by norm_num) hrne2]
    norm_num
  have htr : pyTrunc ((9:ℚ) * 10^21) = 9 * 10^21 := by
    rw [pyTrunc_eq_floor _ (by positivity)]
    rw [show ((9:ℚ) * 10^21) = (((9 * 10^21 : ℤ)):ℚ) by push_cast; ring]
    rw [Int.floor_intCast]
  have hrne3 : rne ((4608000000000000 : ℚ)) = 4608000000000000 := by
    have h := rne_intCast 4608000000000000
    exact_mod_cast h
  have hx4 : floatRound (((9 * 10^21 : ℤ) : ℚ) / (10:ℚ)^9) = 9 * 10^12 := by
    rw [show ((9 * 10^21 : ℤ) : ℚ) / (10:ℚ)^9 = 9 * 10^12 by push_cast; norm_num]
    rw [floatRound_eval ((9:ℚ) * 10^12) (4608000000000000 : ℚ) (-9) 4608000000000000
      (by norm_num) (by norm_num) (by norm_num) (by norm_num) hrne3]
    norm_num
  have hpipe : toDisplayUnits (_to_wei (9 * 10^12 + 9/10^4) "gwei") 9 = 9 * 10^12 := by
    have hne : ¬ (("gwei":String) = "ether") := by decide
    rw [show _to_wei (9 * 10^12 + 9/10^4) "gwei"
        = pyTrunc (floatRound (floatRound ((9:ℚ) * 10^12 + 9/10^4) * 10^9)) by
      unfold _to_wei
      rw [if_neg hne, if_pos rfl]]
    rw [hx1, hx2, htr]
    unfold toDisplayUnits
    exact hx4
  rw [hpipe]
  rw [show (9:ℚ)*10^12 - (9*10^12 + 9/10^4) = -(9/10^4) by ring, abs_neg,
    abs_of_pos (by norm_num : (0:ℚ) < 9/10^4)]
  norm_num

/-- **C10** (confirmed).  `check_token_balance` returns `"<amount> TOK"` where
the amount is the raw balance divided by 10^18 rendered with exactly four
fraction digits (the rendered value is within one last-digit ulp, 10^-4, of
the exact quotient); in the spec's end-to-end scenario — balance 1000 base
units, decimals 18 — it returns exactly `"0.0000 TOK"`. -/
theorem c10_formatted_balance :
    (∀ (o : Oracle) (tok : Address), o.balances 0 ≤ 10^18 →
      ∃ n : ℕ,
        (check_token_balance o tok).ret = render4 n ++ " " ++ "TOK" ∧
        |(n : ℚ) / 10^4 - (o.balances 0 : ℚ) / 10^18| ≤ 1/10^4) ∧
    (check_token_balance oracleC10 "0xToken").ret = "0.0000 TOK" := by
  constructor
  · intro o tok hb
    set b := o.balances 0 with hbdef
    set v := toDisplayUnits (b:ℤ) 18 with hv
    refine ⟨(rne (v * 10^4)).toNat, rfl, ?_⟩
    have hvnn : 0 ≤ v := floatRound_nonneg _
    have hwnn : (0:ℚ) ≤ v * 10^4 := by positivity
    have hrnn : 0 ≤ rne (v * 10^4) := rne_nonneg _ hwnn
    have hcast : (((rne (v * 10^4)).toNat : ℕ) : ℚ) = ((rne (v * 10^4) : ℤ) : ℚ) := by
      exact_mod_cast Int.toNat_of_nonneg hrnn
    have hvz : v = floatRound (((b:ℕ):ℚ)/(10:ℚ)^18) := by
      rw [hv]
      simp only [toDisplayUnits, Int.cast_natCast]
    have hble : ((b:ℚ))/10^18 ≤ 1 := by
      rw [div_le_one (by positivity)]
      exact_mod_cast hb
    have herr2 : |v - (b:ℚ)/10^18| ≤ 1/2^53 := by
      rw [hvz]
      have herr := floatRound_err' ((b:ℚ)/10^18) (by positivity)
      have hmono : ((b:ℚ)/10^18)/2^53 ≤ 1/2^53 :=
        (div_le_div_right (by norm_num)).mpr hble
      exact le_trans herr hmono
    have h1' := rne_sub_abs (v * 10^4)
    rw [hcast]
    have t1 : |((rne (v * 10^4) : ℤ):ℚ)/10^4 - v| ≤ (1/2)/10^4 := by
      have e1 : ((rne (v * 10^4) : ℤ):ℚ)/10^4 - v
          = (((rne (v * 10^4) : ℤ):ℚ) - v * 10^4)/10^4 := by
        field_simp
        ring
      rw [e1, abs_div, abs_of_pos (by norm_num : (0:ℚ) < 10^4)]
      exact (div_le_div_right (by norm_num)).mpr h1'
    calc |((rne (v * 10^4) : ℤ):ℚ)/10^4 - (b:ℚ)/10^18|
        ≤ |((rne (v * 10^4) : ℤ):ℚ)/10^4 - v| + |v - (b:ℚ)/10^18| := abs_sub_le _ _ _
    _ ≤ (1/2)/10^4 + 1/2^53 := by linarith
    _ ≤ 1/10^4 := by norm_num
  · have hrne : rne ((5070602400912917605986812821504/1000000000000000 : ℚ))
        = 5070602400912918 := by
      have h := rne_eq_of_gt_half (5070602400912917605986812821504/1000000000000000 : ℚ)
        5070602400912917 (by norm_num) (by norm_num)
      rw [h]
      decide
    have hv : floatRound (((1000:ℕ):ℚ) / (10:ℚ)^18)
        = (5070602400912918:ℚ) * 2^(-102:ℤ) :=
      floatRound_eval _ (5070602400912917605986812821504/1000000000000000 : ℚ) (-102)
        5070602400912918 (by positivity) (by push_cast; norm_num) (by norm_num)
        (by norm_num) hrne
    have hrne0 : rne ((5070602400912918:ℚ) * 2^(-102:ℤ) * 10^4) = 0 :=
      rne_eq_of_lt_half _ 0 (by push_cast; positivity) (by push_cast; norm_num)
    show fmt4 (toDisplayUnits ((1000:ℕ):ℤ) 18) ++ " " ++ "TOK" = "0.0000 TOK"
    have halign : toDisplayUnits ((1000:ℕ):ℤ) 18 = floatRound (((1000:ℕ):ℚ)/(10:ℚ)^18) := by
      simp only [toDisplayUnits, Int.cast_natCast]
    rw [halign, hv]
    unfold fmt4
    rw [hrne0]
    rfl

theorem c10_formatted_balance_witness :
    oracleC10.balances 0 ≤ 10^18 ∧
    (∃ n : ℕ,
      (check_token_balance oracleC10 "0xToken").ret = render4 n ++ " " ++ "TOK" ∧
      |(n : ℚ) / 10^4 - (oracleC10.balances 0 : ℚ) / 10^18| ≤ 1/10^4) :=
  ⟨by decide, c10_formatted_balance.1 oracleC10 "0xToken" (by decide)⟩

/-- **C9** counterexample.  `to_checksum_address` maps "0xab" and "0xAB" —
two addresses differing only in letter case — to two *different* canonical
values: the dummy performs no case normalization at all. -/
theorem c9_counterexample :
    to_checksum_address "0xab" = "0xab" ∧
    to_checksum_address "0xAB" = "0xAB" ∧
    "0xab" ≠ "0xAB" ∧
    to_checksum_address "0xab" ≠ to_checksum_address "0xAB" :=
  ⟨rfl, rfl, by decide, by decide⟩

/-- **C9** (amended).  `to_checksum_address` is the identity: it normalizes
nothing, so two address spellings are treated as the same entity exactly when
they are equal character for character. -/
theorem c9_checksum_identity (a b : Address) :
    to_checksum_address a = a ∧
    (to_checksum_address a = to_checksum_address b ↔ a = b) :=
  ⟨rfl, Iff.rfl⟩

end AnkrBot
